import Mathlib

/-!
# CyberSynth state/compile/mix/history engine — verification development

Shallow embedding of the engine implemented in `src/assets/js/cybermidi.js`.
The file contains two near-duplicate front-end variants:

* `CyberMidi` (lines 1–851): MIDI-note variant.
* `CyberStrudel` (lines 851–2803): drum/strudel variant.

JavaScript objects used as string-keyed dictionaries (`sequencerState`,
`trackStates`, `mixedPatterns.*`) and the insertion-ordered `Map`
(`savedPatterns`) are embedded as association lists `List (String × α)`
in insertion order, which matches JavaScript's enumeration order for
string keys.  Numbers that are integers in every reachable state
(`bpm`, step counts, indices) are embedded as `Nat`; the history cursor
`historyIndex`, which starts at `-1`, is embedded as `Int`.
-/

namespace CyberSynth

/-- Lookup in a string-keyed association list, mirroring JavaScript
property access `m[k]` (first binding wins; keys are unique in every
reachable state). -/
def alookup (k : String) : List (String × α) → Option α
  | [] => none
  | (k', v) :: rest => if k' = k then some v else alookup k rest

/-- Update the value stored at key `k` in place (JS `m[k].field = …` on an
existing key); entries with other keys are untouched and order is kept. -/
def updateEntry (k : String) (f : α → α) : List (String × α) → List (String × α)
  | [] => []
  | (k', v) :: rest =>
    if k' = k then (k', f v) :: rest else (k', v) :: updateEntry k f rest

/-- JavaScript `Map.prototype.set` / keyed insert: replace the value at an
existing key in place, otherwise append a fresh binding at the end. -/
def mapSet (m : List (String × α)) (k : String) (v : α) : List (String × α) :=
  match m with
  | [] => [(k, v)]
  | (k', v') :: rest =>
    if k' = k then (k, v) :: rest else (k', v') :: mapSet rest k v

/-- JavaScript `Map.prototype.has` / `in` test. -/
def mapHas (m : List (String × α)) (k : String) : Bool :=
  m.any fun kv => kv.1 = k

/-- Number of bindings for key `k` (a real `Map` always has 0 or 1). -/
def countKey (m : List (String × α)) (k : String) : Nat :=
  (m.filter fun kv => kv.1 = k).length

/-- Per-track configuration: `trackStates[track]` in the source
(`{ muted, solo, steps, sound }`). -/
structure TrackConfig where
  muted : Bool
  solo : Bool
  steps : Nat
  sound : String
deriving DecidableEq, Repr

/-! ## PatternCompiler (`CyberStrudel.generateTrackCode` lines 1705–1753,
also inlined in `updateMixedCode` and `generateSequencerCode`) -/

/-- One marker of the structure mask:
`active => 'x' : '~'` in the source. -/
def marker (active : Bool) : String :=
  if active then "x" else "~"

/-- `steps.map(active => active ? 'x' : '~').join(' ')` — the
space-separated structure mask of a step grid. -/
def maskOf (grid : List Bool) : String :=
  String.intercalate " " (grid.map marker)

/-- The closed tonal-sound subset `['sawtooth', 'sine', 'triangle']`. -/
def tonalSounds : List String := ["sawtooth", "sine", "triangle"]

/-- The fragment emitted for one track (`generateTrackCode` lines 1717–1719;
the same expression is inlined in `updateMixedCode` lines 1768–1770 and
`generateSequencerCode` lines 2054–2056): tonal sounds get the fixed-pitch
form, all other sounds the `stepCount`-fold sample form, both driven by the
structure mask. -/
def compileTrack (grid : List Bool) (stepCount : Nat) (sound : String) : String :=
  if sound ∈ tonalSounds then
    "note('c3').sound('" ++ sound ++ "').struct(\"" ++ maskOf grid ++ "\").gain(0.8)"
  else
    "s(\"" ++ sound ++ "*" ++ toString stepCount ++ "\").struct(\"" ++ maskOf grid ++ "\").gain(0.8)"

/-- `steps.includes('x')` on the joined mask string: the mask mentions at
least one hit marker. -/
def maskHasHit (grid : List Bool) : Bool :=
  (maskOf grid).data.contains 'x'

/-! ## Engine state (`CyberStrudel` constructor lines 856–896) -/

/-- Global synth parameters relevant to program generation.  The source's
`synthParams` also carries `lpf`, `lpq`, `room`, `delay` (floating-point
UI knobs only used by `applySynthToCode`); no modelled operation reads
them, so they are omitted here.  `bpm` is set from an integer slider
(`parseInt`), default `120`. -/
structure SynthParams where
  bpm : Nat
  bpmEnabled : Bool
deriving DecidableEq, Repr

/-- A saved-pattern record (`CyberStrudel.savePattern` lines 2218–2223):
the program text plus deep-copied snapshots of the sequencer grids, track
configurations and synth parameters at save time. -/
structure PatternRecord where
  code : String
  seqSnap : List (String × List Bool)
  trackSnap : List (String × TrackConfig)
  paramSnap : SynthParams
deriving DecidableEq, Repr

/-- The editable engine state of the `CyberStrudel` variant.  `mixTracks`,
`mixPresets`, `mixSaved` are the three key→enabled maps of
`this.mixedPatterns`; `presets` is the fixed fragment table of the
`get presets()` accessor (lines 1582–1634). -/
structure EngineState where
  sequencerState : List (String × List Bool)
  trackStates : List (String × TrackConfig)
  mixTracks : List (String × Bool)
  mixPresets : List (String × Bool)
  mixSaved : List (String × Bool)
  savedPatterns : List (String × PatternRecord)
  presets : List (String × String)
  synthParams : SynthParams
deriving Repr

/-- `Object.values(this.trackStates).some(state => state.solo)`. -/
def anySolo (s : EngineState) : Bool :=
  s.trackStates.any fun kv => kv.2.solo

/-- Default per-track configuration (constructor line 866 shape).  Only
used as the `getD` fallback where the source would dereference a key that
is present in `sequencerState` but not in `trackStates`; the constructor
and every mutation keep the two key sets identical, so the fallback is
never reached from a well-formed state. -/
def defaultConfig : TrackConfig :=
  { muted := false, solo := false, steps := 8, sound := "bd" }

/-! ## MixEngine (`CyberStrudel.updateMixedCode` lines 1755–1818) -/

/-- The track fragments pushed by the first loop of `updateMixedCode`
(lines 1759–1774): for each sequencer track in key order, if its mix
toggle is on, it is skipped when muted or when some track is soloed and
this one is not; otherwise its grid is sliced to `stepCount`, turned into
the mask, and compiled — but pushed only when the mask contains a hit. -/
def trackFragments (s : EngineState) : List String :=
  (s.sequencerState.map Prod.fst).filterMap fun track =>
    if (alookup track s.mixTracks).getD false then
      let cfg := (alookup track s.trackStates).getD defaultConfig
      if cfg.muted || (anySolo s && !cfg.solo) then none
      else
        let grid := ((alookup track s.sequencerState).getD []).take cfg.steps
        if maskHasHit grid then some (compileTrack grid cfg.steps cfg.sound)
        else none
    else none

/-- The preset fragments pushed by the second loop (lines 1777–1781):
every enabled key of `mixedPatterns.presets` pushes `this.presets[key]`.
A selection key absent from the preset table would push JavaScript
`undefined`, which stringifies as `"undefined"` when joined; the UI only
creates selection entries for existing preset keys. -/
def presetFragments (s : EngineState) : List String :=
  s.mixPresets.filterMap fun kv =>
    if kv.2 then some ((alookup kv.1 s.presets).getD "undefined") else none

/-- The saved-pattern fragments pushed by the third loop (lines
1784–1792): every enabled name of `mixedPatterns.saved` whose record
exists and has truthy (non-empty) `code` pushes that stored code
verbatim. -/
def savedFragments (s : EngineState) : List String :=
  s.mixSaved.filterMap fun kv =>
    if kv.2 then
      match alookup kv.1 s.savedPatterns with
      | some r => if r.code ≠ "" then some r.code else none
      | none => none
    else none

/-- The full fragment list accumulated by `updateMixedCode`:
tracks, then presets, then saved patterns. -/
def mixPatterns (s : EngineState) : List String :=
  trackFragments s ++ presetFragments s ++ savedFragments s

/-- Fragment composition (lines 1795–1803): one fragment is emitted
unwrapped, two or more are wrapped in a single `stack(…)` with `', '`
between them, zero give the empty program. -/
def composePatterns (patterns : List String) : String :=
  if patterns.length = 1 then patterns.headI
  else if patterns.length > 1 then "stack(" ++ String.intercalate ", " patterns ++ ")"
  else ""

/-- The program text `updateMixedCode` assigns to the code editor
(lines 1795–1811): the composed fragments, prefixed by a `setCps`
statement when `bpmEnabled` is set and at least one fragment exists. -/
def updateMixedCode (s : EngineState) : String :=
  let patterns := mixPatterns s
  let newCode := composePatterns patterns
  if s.synthParams.bpmEnabled && decide (patterns.length > 0) then
    "setCps(" ++ toString s.synthParams.bpm ++ "/60/4)\n" ++ newCode
  else newCode

/-! ## Spec-side mix model, for the refinement claim C1.
These definitions follow the words of spec §4.3 (and of claim C1), not the
source: a track fragment for every selected, enabled track that is not
muted, not excluded by the solo rule, and has at least one active step;
every enabled preset's fixed fragment; every enabled saved pattern's
stored code; composed as zero → empty, one → unwrapped, many → one
`stack`, in the order tracks, presets, saved patterns. -/

/-- Modelled from the spec: the track fragments of §4.3 step 1. -/
def specTrackFragments (s : EngineState) : List String :=
  (s.sequencerState.map Prod.fst).filterMap fun track =>
    let enabled := (alookup track s.mixTracks).getD false
    let cfg := (alookup track s.trackStates).getD defaultConfig
    let grid := ((alookup track s.sequencerState).getD []).take cfg.steps
    if enabled ∧ ¬cfg.muted ∧ ¬(anySolo s ∧ ¬cfg.solo) ∧ grid.any id then
      some (compileTrack grid cfg.steps cfg.sound)
    else none

/-- Modelled from the spec: each selected, enabled preset's fixed
fragment, verbatim (§4.3 step 2). -/
def specPresetFragments (s : EngineState) : List String :=
  s.mixPresets.filterMap fun kv =>
    match alookup kv.1 s.presets with
    | some frag => if kv.2 then some frag else none
    | none => none

/-- Modelled from the spec: each selected, enabled saved pattern's stored
code, verbatim (§4.3 step 3). -/
def specSavedFragments (s : EngineState) : List String :=
  s.mixSaved.filterMap fun kv =>
    match alookup kv.1 s.savedPatterns with
    | some r => if kv.2 then some r.code else none
    | none => none

/-- Modelled from the spec: fragment order — tracks, then presets, then
saved patterns (§4.3 step 4). -/
def specFragments (s : EngineState) : List String :=
  specTrackFragments s ++ specPresetFragments s ++ specSavedFragments s

/-- Modelled from the spec: zero fragments → empty program; exactly one →
that fragment unwrapped; more than one → a single parallel-composition
combinator wrapping all fragments (§4.3 step 4). -/
def specCompose : List String → String
  | [] => ""
  | [f] => f
  | f :: g :: rest => "stack(" ++ String.intercalate ", " (f :: g :: rest) ++ ")"

/-! ## TrackStore operations -/

/-- `toggleStep` (`CyberStrudel` lines 1123–1131, `CyberMidi` lines
229–237): `this.sequencerState[track][index] = !this.sequencerState[track][index]`
with no bounds check.  For `index` within the grid this flips one slot.
For `index` past the end, JavaScript reads `undefined` (falsy), so
`!undefined` is `true`, and the assignment extends the array to length
`index + 1`; the intermediate holes read back as `undefined`, which every
consumer (`active ? … : …`) treats as an inactive step, so they are
embedded as `false`. -/
def toggleStepGrid (grid : List Bool) (index : Nat) : List Bool :=
  if h : index < grid.length then
    grid.set index (!grid.get ⟨index, h⟩)
  else
    grid ++ List.replicate (index - grid.length) false ++ [true]

/-- `CyberStrudel.changeStepCount` grid resize (lines 1670–1683):
`current = old.slice(0, count)`, then a fresh all-`false` array of length
`count` whose first `min(current.length, count)` slots are copied from
`current`. -/
def changeStepCountGrid (grid : List Bool) (count : Nat) : List Bool :=
  let current := grid.take count
  (List.range count).map fun i => current.getD i false

/-- `CyberStrudel.changeStepCount` (lines 1670–1683) on the state parts it
mutates: sets `trackStates[track].steps = count` and rebuilds
`sequencerState[track]` via `changeStepCountGrid`. -/
def changeStepCount (s : EngineState) (track : String) (count : Nat) : EngineState :=
  { s with
    trackStates := updateEntry track (fun cfg => { cfg with steps := count }) s.trackStates
    sequencerState :=
      updateEntry track (fun grid => changeStepCountGrid grid count) s.sequencerState }

/-! ## Mute / solo -/

/-- `CyberStrudel.toggleSolo` (lines 1992–2016): remembers whether the
clicked track was soloed, then iterates over every track `t`, setting
`solo := (t === track ? !wasSolo : false)`, and for every other track
also resetting `muted := false`. -/
def csToggleSolo (states : List (String × TrackConfig)) (track : String) :
    List (String × TrackConfig) :=
  let wasSolo := ((alookup track states).map TrackConfig.solo).getD false
  states.map fun kv =>
    (kv.1, if kv.1 = track then { kv.2 with solo := !wasSolo }
           else { kv.2 with solo := false, muted := false })

/-- `CyberMidi.toggleSolo` (lines 364–372): a single assignment
`trackStates[track].solo = !trackStates[track].solo`; every other entry
is untouched. -/
def cmToggleSolo (states : List (String × TrackConfig)) (track : String) :
    List (String × TrackConfig) :=
  updateEntry track (fun st => { st with solo := !st.solo }) states

/-- `CyberStrudel.toggleMute` (lines 1971–1990): flips the clicked
track's `muted` flag and clears that same track's `solo` flag
(`trackStates[track].solo = false`, line 1973); other tracks are
untouched. -/
def csToggleMute (states : List (String × TrackConfig)) (track : String) :
    List (String × TrackConfig) :=
  updateEntry track (fun st => { st with muted := !st.muted, solo := false }) states

/-- A track passes the audibility filter used by `updateMixedCode` /
`generateSequencerCode` / `updateSequencerUI`: not muted, and not excluded
by the solo rule (`muted || (someSolo && !solo)` is the skip condition). -/
def trackAudible (states : List (String × TrackConfig)) (cfg : TrackConfig) : Bool :=
  !(cfg.muted || ((states.any fun kv => kv.2.solo) && !cfg.solo))

/-- At most one entry is soloed. -/
def atMostOneSolo (states : List (String × TrackConfig)) : Prop :=
  (states.filter fun kv => kv.2.solo).length ≤ 1

instance (states : List (String × TrackConfig)) : Decidable (atMostOneSolo states) := by
  unfold atMostOneSolo; infer_instance

/-! ## PatternLibrary -/

/-- Outcome of a library mutation: the (possibly unchanged) library plus
an optional error notification. -/
inductive LibError where
  | nameRequired
  | duplicateName
  | noCode
deriving DecidableEq, Repr

/-- `CyberMidi.savePattern` (lines 532–554): requires a non-empty trimmed
name, rejects a name already present in the `savedPatterns` map
(notification ``Pattern "name" already exists``) without touching the
library, and otherwise inserts the record.  The record type is kept
generic: the map semantics do not depend on it. -/
def cmSavePattern (lib : List (String × α)) (name : String) (rec : α) :
    List (String × α) × Option LibError :=
  if name = "" then (lib, some .nameRequired)
  else if mapHas lib name then (lib, some .duplicateName)
  else (mapSet lib name rec, none)

/-- `CyberStrudel.savePattern` (lines 2197–2227): requires a non-empty
trimmed name and non-empty code, then unconditionally
`savedPatterns.set(name, record)` — an existing entry under the same name
is silently overwritten. -/
def csSavePattern (lib : List (String × PatternRecord)) (name : String)
    (rec : PatternRecord) : List (String × PatternRecord) × Option LibError :=
  if name = "" then (lib, some .nameRequired)
  else if rec.code = "" then (lib, some .noCode)
  else (mapSet lib name rec, none)

/-! ## HistoryManager (`saveToHistory` lines 938–955, `undo` lines
964–972, `redo` lines 974–982; the `CyberMidi` copy at lines 106–150 is
verbatim identical) -/

/-- `this.maxHistory = 50` (line 893). -/
def maxHistory : Nat := 50

/-- The history stack: `this.history` plus the cursor
`this.historyIndex`, which starts at `-1` before the first snapshot. -/
structure HistoryState (α : Type) where
  history : List α
  historyIndex : Int
deriving DecidableEq, Repr

/-- `saveToHistory` (lines 938–955): if the cursor is not at the end,
`splice(historyIndex + 1)` discards everything after it; the snapshot is
pushed; if the length now exceeds `maxHistory` the oldest entry is
`shift`ed off; the cursor moves to the last position.  (For
`historyIndex ≥ -1`, `(historyIndex + 1).toNat` matches JavaScript's
treatment of the splice start.) -/
def saveToHistory (s : HistoryState α) (snap : α) : HistoryState α :=
  let kept := if s.historyIndex < (s.history.length : Int) - 1
              then s.history.take (s.historyIndex + 1).toNat
              else s.history
  let appended := kept ++ [snap]
  let trimmed := if appended.length > maxHistory then appended.drop 1 else appended
  { history := trimmed, historyIndex := (trimmed.length : Int) - 1 }

/-- `undo` (lines 964–972): refuses (`'Nothing to undo'`) when
`historyIndex ≤ 0`, otherwise decrements the cursor (restoration of the
entry does not touch the stack itself). -/
def undoStack (s : HistoryState α) : HistoryState α :=
  if s.historyIndex ≤ 0 then s
  else { s with historyIndex := s.historyIndex - 1 }

/-- `redo` (lines 974–982): refuses (`'Nothing to redo'`) when
`historyIndex ≥ length - 1`, otherwise increments the cursor. -/
def redoStack (s : HistoryState α) : HistoryState α :=
  if s.historyIndex ≥ (s.history.length : Int) - 1 then s
  else { s with historyIndex := s.historyIndex + 1 }

/-- The spec's history invariant: `0 ≤ index < length` whenever
`length > 0` (the fresh stack is `[]` with cursor `-1`). -/
def histInv (s : HistoryState α) : Prop :=
  s.history = [] ∨ (0 ≤ s.historyIndex ∧ s.historyIndex < (s.history.length : Int))

instance histInvDecidable [DecidableEq α] (s : HistoryState α) : Decidable (histInv s) := by
  unfold histInv; infer_instance

/-! ## Concrete states used to instantiate hypotheses -/

/-- A small well-formed engine state: two tracks (one with hits, one
empty), one enabled and one disabled preset selection, one enabled saved
pattern. -/
def mixState1 : EngineState where
  sequencerState := [("bd", [true, false, true, false, false, false, false, false]),
                     ("sd", [false, false, false, false, false, false, false, false])]
  trackStates := [("bd", ⟨false, false, 8, "bd"⟩), ("sd", ⟨false, false, 8, "sd"⟩)]
  mixTracks := [("bd", true), ("sd", true)]
  mixPresets := [("a", true), ("b", false)]
  mixSaved := [("X", true)]
  savedPatterns := [("X", ⟨"n(\"0 1\").sound(\"jazz\")", [], [], ⟨120, true⟩⟩)]
  presets := [("a", "s('bd,bass(4,8)').jux(rev).gain(0.8)"),
              ("b", "s('bd,bass(4,8)').jux(rev).gain(0.8).lpf(800).lpq(1).room(0.5).delay(0.3)")]
  synthParams := ⟨120, true⟩

/-- Two tracks, the first soloed: used against the C3 wording. -/
def soloPair : List (String × TrackConfig) :=
  [("bd", ⟨false, true, 8, "bd"⟩), ("sd", ⟨false, false, 8, "sd"⟩)]

/-- A first saved record, for the library claims. -/
def rec1 : PatternRecord := ⟨"s(\"bd*4\").struct(\"x x x x\").gain(0.8)", [], [], ⟨120, true⟩⟩

/-- A different record saved later under the same name. -/
def rec2 : PatternRecord := ⟨"s(\"hh*8\").gain(0.8)", [], [], ⟨100, false⟩⟩

/-! ## Import (`CyberStrudel.importPatterns` lines 2440–2462, identical
logic in `CyberMidi.importPatterns` lines 826–848):
`JSON.parse` the file text, then `this.savedPatterns = new Map(data)` and
`this.mixedPatterns.saved = {}`; any exception lands in the `catch` that
shows `'Invalid pattern file'` and leaves both untouched.  The payload is
modelled after `JSON.parse` as a JSON value tree (a string-level parse
failure lands in the same `catch` as a rejected `Map` construction). -/

/-- A parsed JSON value.  `undef` is not produced by `JSON.parse` but
arises as the result of reading a missing property (JS `undefined`). -/
inductive JVal where
  | undef
  | null
  | bool (b : Bool)
  | num (n : Int)
  | str (s : String)
  | arr (items : List JVal)
  | obj (fields : List (String × JVal))
deriving Repr

mutual

/-- Structural equality of JSON values, standing in for the SameValueZero
comparison `Map` uses on keys (the `-0`/`NaN` corners of SameValueZero do
not arise: `num` is the integers). -/
def JVal.beq : JVal → JVal → Bool
  | .undef, .undef => true
  | .null, .null => true
  | .bool a, .bool b => a == b
  | .num a, .num b => a == b
  | .str a, .str b => a == b
  | .arr xs, .arr ys => JVal.beqList xs ys
  | .obj fs, .obj gs => JVal.beqObj fs gs
  | _, _ => false

def JVal.beqList : List JVal → List JVal → Bool
  | [], [] => true
  | a :: as, b :: bs => JVal.beq a b && JVal.beqList as bs
  | _, _ => false

def JVal.beqObj : List (String × JVal) → List (String × JVal) → Bool
  | [], [] => true
  | (k, a) :: as, (k', b) :: bs => k == k' && JVal.beq a b && JVal.beqObj as bs
  | _, _ => false

end

/-- `Map.prototype.set` with JSON-value keys (replace in place or
append), as performed for each entry during `new Map(data)`. -/
def jmapSet (m : List (JVal × JVal)) (k v : JVal) : List (JVal × JVal) :=
  match m with
  | [] => [(k, v)]
  | (k', v') :: rest =>
    if JVal.beq k' k then (k, v) :: rest else (k', v') :: jmapSet rest k v

/-- One step of ECMAScript `AddEntriesFromIterable`: an entry that is not
an object throws a `TypeError`; otherwise the key is `Get(entry, "0")`
and the value `Get(entry, "1")` (reading a missing index or field gives
`undefined`). -/
def entryKV : JVal → Option (JVal × JVal)
  | .arr xs => some (xs.getD 0 .undef, xs.getD 1 .undef)
  | .obj fs => some ((alookup "0" fs).getD .undef, (alookup "1" fs).getD .undef)
  | _ => none

/-- Fold of `AddEntriesFromIterable` over the iterated entries: the first
non-object entry aborts with the `TypeError` the source's `catch`
swallows. -/
def addEntries : List JVal → List (JVal × JVal) → Except Unit (List (JVal × JVal))
  | [], acc => .ok acc
  | item :: rest, acc =>
    match entryKV item with
    | some (k, v) => addEntries rest (jmapSet acc k v)
    | none => .error ()

/-- `new Map(data)` on a parsed JSON value.  Per ECMAScript, the `Map`
constructor returns the empty map outright when its argument is
`undefined` or `null`; arrays iterate their elements; a string is
iterable too, but any character yields a non-object entry, so only the
empty string succeeds (as the empty map); every other value (number,
boolean, plain object) is not iterable and throws. -/
def newMapFromJson : JVal → Except Unit (List (JVal × JVal))
  | .arr items => addEntries items []
  | .str s => if s = "" then .ok [] else .error ()
  | .null => .ok []
  | .undef => .ok []
  | _ => .error ()

/-- `importPatterns` after `JSON.parse`, on the state it touches: on
success the library is replaced wholesale by the constructed map and the
saved mix selection is cleared; on a throw both are left unchanged and
the error notification (`Bool` result) is shown. -/
def importPatterns (payload : JVal) (lib : List (JVal × JVal))
    (sel : List (String × Bool)) :
    List (JVal × JVal) × List (String × Bool) × Bool :=
  match newMapFromJson payload with
  | .ok m => (m, [], false)
  | .error _ => (lib, sel, true)

/-- Modelled from the spec: one `(name, record)` pair — a two-element
array whose first element is a string name. -/
def isNamedPair : JVal → Bool
  | .arr [.str _, _] => true
  | _ => false

/-- Modelled from the spec: a well-formed export payload is a list of
`(name, record)` pairs (§6 export/import file format). -/
def wellFormedPairs : JVal → Bool
  | .arr items => items.all isNamedPair
  | _ => false

/-- A malformed payload that `new Map` nevertheless accepts: its single
entry is a three-element array, not a pair. -/
def badPayload : JVal := .arr [.arr [.str "a", .str "b", .str "c"]]

/-- A well-formed payload of two `(name, record)` pairs. -/
def goodPayload : JVal :=
  .arr [.arr [.str "beat", .obj [("code", .str "s(\"bd*4\")")]],
        .arr [.str "hats", .obj [("code", .str "s(\"hh*8\")")]]]

end CyberSynth

namespace CyberSynth

/-! # Theorems -/

/-! ## Auxiliary facts about `String.intercalate`, the mask, and
association lists -/

theorem intercalate_go_acc (s : String) (l : List String) :
    ∀ a b : String, String.intercalate.go (a ++ b) s l = a ++ String.intercalate.go b s l := by
  induction l with
  | nil => intro a b; simp [String.intercalate.go]
  | cons x xs ih =>
    intro a b
    simp only [String.intercalate.go]
    rw [String.append_assoc, String.append_assoc, ih, ← String.append_assoc b s x]

theorem intercalate_cons_cons (s a b : String) (l : List String) :
    String.intercalate s (a :: b :: l) = a ++ s ++ String.intercalate s (b :: l) := by
  simp only [String.intercalate]
  rw [show String.intercalate.go a s (b :: l)
        = String.intercalate.go (a ++ s ++ b) s l from rfl]
  exact intercalate_go_acc s l (a ++ s) b

theorem mem_maskOf_data (grid : List Bool) :
    'x' ∈ (maskOf grid).data ↔ grid.any id = true := by
  induction grid with
  | nil => simp [maskOf, String.intercalate]
  | cons a rest ih =>
    cases rest with
    | nil =>
      cases a <;> simp [maskOf, marker, String.intercalate, String.intercalate.go]
    | cons b t =>
      have hmask : maskOf (a :: b :: t) = marker a ++ " " ++ maskOf (b :: t) := by
        simpa [maskOf] using intercalate_cons_cons " " (marker a) (marker b) (t.map marker)
      have hdata : (maskOf (a :: b :: t)).data
          = (marker a).data ++ ((" " : String).data ++ (maskOf (b :: t)).data) := by
        rw [hmask]
        rw [show marker a ++ " " ++ maskOf (b :: t)
              = marker a ++ (" " ++ maskOf (b :: t)) from String.append_assoc ..]
        simp [String.data_append]
      have hx : ("x" : String).data = ['x'] := rfl
      have ht : ("~" : String).data = ['~'] := rfl
      have hs : (" " : String).data = [' '] := rfl
      rw [hdata]
      cases a <;> simp [marker, hx, ht, hs, List.mem_append, ih, List.any_cons]

/-- Character content of the mask: the `includes('x')` check on the joined
mask string is exactly "some step of the grid is active". -/
theorem maskHasHit_eq_any (grid : List Bool) : maskHasHit grid = grid.any id := by
  rw [Bool.eq_iff_iff]
  unfold maskHasHit
  rw [show ((maskOf grid).data.contains 'x' = true) ↔ ('x' ∈ (maskOf grid).data) by
        simp [List.contains, List.elem_iff]]
  exact mem_maskOf_data grid

theorem composePatterns_eq_specCompose (patterns : List String) :
    composePatterns patterns = specCompose patterns := by
  match patterns with
  | [] => rfl
  | [f] => rfl
  | f :: g :: rest => simp [composePatterns, specCompose]

theorem trackFragment_pointwise (b m asolo tsolo : Bool) (grid : List Bool)
    (n : Nat) (sound : String) :
    (if b then
       (if m || (asolo && !tsolo) then none
        else if maskHasHit grid then some (compileTrack grid n sound) else none)
     else none)
    = (if b ∧ ¬m ∧ ¬(asolo ∧ ¬tsolo) ∧ grid.any id then
         some (compileTrack grid n sound) else none) := by
  rw [maskHasHit_eq_any]
  cases b <;> cases m <;> cases asolo <;> cases tsolo <;>
    cases hany : grid.any id <;> simp [hany]

theorem trackFragments_eq_spec (s : EngineState) :
    trackFragments s = specTrackFragments s := by
  unfold trackFragments specTrackFragments
  apply List.filterMap_congr
  intro track _
  exact trackFragment_pointwise ((alookup track s.mixTracks).getD false)
    ((alookup track s.trackStates).getD defaultConfig).muted (anySolo s)
    ((alookup track s.trackStates).getD defaultConfig).solo
    (((alookup track s.sequencerState).getD []).take
      ((alookup track s.trackStates).getD defaultConfig).steps)
    ((alookup track s.trackStates).getD defaultConfig).steps
    ((alookup track s.trackStates).getD defaultConfig).sound

theorem presetFragments_eq_spec (s : EngineState)
    (hPre : ∀ kv ∈ s.mixPresets, kv.2 = true → (alookup kv.1 s.presets).isSome = true) :
    presetFragments s = specPresetFragments s := by
  unfold presetFragments specPresetFragments
  apply List.filterMap_congr
  intro kv hkv
  cases he : kv.2 with
  | false => cases alookup kv.1 s.presets <;> simp [he]
  | true =>
    have hsome := hPre kv hkv he
    cases hl : alookup kv.1 s.presets with
    | none => rw [hl] at hsome; simp at hsome
    | some frag => simp [he, hl]

theorem savedFragments_eq_spec (s : EngineState)
    (hSav : ∀ kv ∈ s.mixSaved, kv.2 = true →
      ((alookup kv.1 s.savedPatterns).map PatternRecord.code).getD "" ≠ "") :
    savedFragments s = specSavedFragments s := by
  unfold savedFragments specSavedFragments
  apply List.filterMap_congr
  intro kv hkv
  cases he : kv.2 with
  | false => cases alookup kv.1 s.savedPatterns <;> simp [he]
  | true =>
    have hcode := hSav kv hkv he
    cases hl : alookup kv.1 s.savedPatterns with
    | none => rw [hl] at hcode; simp at hcode
    | some r =>
      rw [hl] at hcode
      have hcode' : r.code ≠ "" := by simpa using hcode
      simp [he, hl, hcode']

end CyberSynth

namespace CyberSynth

/-! ## Claim C1 -/

/-- **C1.** For every engine state whose enabled preset selections name
existing presets and whose enabled saved selections name existing saved
patterns with non-empty stored code, the fragment list assembled by
`updateMixedCode` is exactly the spec's fragment list — each enabled
track that is not muted, not excluded by the solo rule, and has at least
one active step, compiled; then each enabled preset's fixed fragment
verbatim; then each enabled saved pattern's stored code verbatim — and
its composition (to which C9's tempo prefix is applied afterwards) is the
empty program for zero fragments, the single fragment unwrapped for one,
and a single `stack(…)` wrapping all fragments, in the order tracks,
presets, saved patterns, for two or more. -/
theorem c1_updateMixedCode_matches_spec (s : EngineState)
    (hPre : ∀ kv ∈ s.mixPresets, kv.2 = true → (alookup kv.1 s.presets).isSome = true)
    (hSav : ∀ kv ∈ s.mixSaved, kv.2 = true →
      ((alookup kv.1 s.savedPatterns).map PatternRecord.code).getD "" ≠ "") :
    mixPatterns s = specFragments s ∧
    composePatterns (mixPatterns s) = specCompose (specFragments s) := by
  have h : mixPatterns s = specFragments s := by
    unfold mixPatterns specFragments
    rw [trackFragments_eq_spec, presetFragments_eq_spec s hPre,
        savedFragments_eq_spec s hSav]
  exact ⟨h, by rw [h, composePatterns_eq_specCompose]⟩

/-- Witness for C1 at the concrete state `mixState1`. -/
theorem c1_witness :
    (∀ kv ∈ mixState1.mixPresets, kv.2 = true →
      (alookup kv.1 mixState1.presets).isSome = true) ∧
    (∀ kv ∈ mixState1.mixSaved, kv.2 = true →
      ((alookup kv.1 mixState1.savedPatterns).map PatternRecord.code).getD "" ≠ "") ∧
    (mixPatterns mixState1 = specFragments mixState1 ∧
     composePatterns (mixPatterns mixState1) = specCompose (specFragments mixState1)) :=
  ⟨by decide, by decide,
   c1_updateMixedCode_matches_spec mixState1 (by decide) (by decide)⟩

/-! ## Claim C2 -/

/-- **C2.** For every step grid and every sound, the compiled mask is the
space-separation of the per-step marker list, which has one marker per
step — the hit marker `"x"` exactly at active positions and the rest
marker `"~"` elsewhere; a tonal sound (`sawtooth`/`sine`/`triangle`)
yields the fixed-pitch tonal fragment driven by that mask, any other
sound the sample fragment repeating the sample `N` times with the mask as
a structure mask.  In particular `[true,false,true,false,false,false,false,false]`
with `"bd"` yields the mask `"x ~ x ~ ~ ~ ~ ~"` in the sample form, and
the same grid with `"sine"` yields the tonal form. -/
theorem c2_compileTrack_structure :
    (∀ (steps : List Bool) (sound : String),
      maskOf steps = String.intercalate " " (steps.map marker) ∧
      (steps.map marker).length = steps.length ∧
      (∀ i (h : i < steps.length),
        (steps.map marker).get ⟨i, by simpa using h⟩
          = if steps.get ⟨i, h⟩ then "x" else "~") ∧
      (sound ∈ tonalSounds →
        compileTrack steps steps.length sound
          = "note('c3').sound('" ++ sound ++ "').struct(\""
              ++ maskOf steps ++ "\").gain(0.8)") ∧
      (sound ∉ tonalSounds →
        compileTrack steps steps.length sound
          = "s(\"" ++ sound ++ "*" ++ toString steps.length ++ "\").struct(\""
              ++ maskOf steps ++ "\").gain(0.8)")) ∧
    compileTrack [true, false, true, false, false, false, false, false] 8 "bd"
      = "s(\"bd*8\").struct(\"x ~ x ~ ~ ~ ~ ~\").gain(0.8)" ∧
    compileTrack [true, false, true, false, false, false, false, false] 8 "sine"
      = "note('c3').sound('sine').struct(\"x ~ x ~ ~ ~ ~ ~\").gain(0.8)" := by
  refine ⟨fun steps sound => ⟨rfl, by simp, ?_, ?_, ?_⟩, by decide, by decide⟩
  · intro i h
    simp [marker]
  · intro ht
    simp [compileTrack, ht]
  · intro ht
    simp [compileTrack, ht]

/-- Witness for C2 at grid `[true, false]`, sound `"sine"`, index 0. -/
theorem c2_witness :
    ("sine" ∈ tonalSounds) ∧ (0 < ([true, false] : List Bool).length) ∧
    (([true, false] : List Bool).map marker).get ⟨0, by decide⟩
      = (if ([true, false] : List Bool).get ⟨0, by decide⟩ then "x" else "~") ∧
    compileTrack [true, false] ([true, false] : List Bool).length "sine"
      = "note('c3').sound('" ++ "sine" ++ "').struct(\""
          ++ maskOf [true, false] ++ "\").gain(0.8)" :=
  ⟨by decide, by decide,
   (c2_compileTrack_structure.1 [true, false] "sine").2.2.1 0 (by decide),
   (c2_compileTrack_structure.1 [true, false] "sine").2.2.2.1 (by decide)⟩

/-! ## Claim C9 -/

/-- **C9.** When `bpmEnabled` is set and the mix produced at least one
fragment, the composed program is prefixed with the tempo statement
`setCps(bpm/60/4)` (the evaluator's cycles-per-second conversion of
`bpm`); when `bpmEnabled` is unset or zero fragments were produced, no
tempo statement is prepended. -/
theorem c9_tempo_prepend (s : EngineState) :
    (s.synthParams.bpmEnabled = true → mixPatterns s ≠ [] →
      updateMixedCode s
        = "setCps(" ++ toString s.synthParams.bpm ++ "/60/4)\n"
            ++ composePatterns (mixPatterns s)) ∧
    (s.synthParams.bpmEnabled = false ∨ mixPatterns s = [] →
      updateMixedCode s = composePatterns (mixPatterns s)) := by
  unfold updateMixedCode
  constructor
  · intro hb hne
    have hpos : 0 < (mixPatterns s).length := List.length_pos.mpr hne
    simp [hb, hpos]
  · intro h
    cases h with
    | inl hb => simp [hb]
    | inr he => simp [he]

/-- Witness for C9 at the concrete state `mixState1`. -/
theorem c9_witness :
    mixState1.synthParams.bpmEnabled = true ∧ mixPatterns mixState1 ≠ [] ∧
    updateMixedCode mixState1
      = "setCps(" ++ toString mixState1.synthParams.bpm ++ "/60/4)\n"
          ++ composePatterns (mixPatterns mixState1) :=
  ⟨rfl, by decide, (c9_tempo_prepend mixState1).1 rfl (by decide)⟩

end CyberSynth

namespace CyberSynth

/-! ## Association-list lemmas -/

theorem alookup_updateEntry_self (k : String) (f : α → α) (m : List (String × α)) :
    alookup k (updateEntry k f m) = (alookup k m).map f := by
  induction m with
  | nil => rfl
  | cons kv rest ih =>
    by_cases h : kv.1 = k
    · simp [updateEntry, alookup, h]
    · simp [updateEntry, alookup, h, ih]

theorem alookup_updateEntry_ne (k t : String) (f : α → α) (m : List (String × α))
    (h : t ≠ k) : alookup t (updateEntry k f m) = alookup t m := by
  induction m with
  | nil => rfl
  | cons kv rest ih =>
    by_cases hk : kv.1 = k
    · have hkt : ¬ (k = t) := fun hh => h hh.symm
      simp [updateEntry, alookup, hk, hkt]
    · by_cases ht : kv.1 = t
      · simp [updateEntry, alookup, hk, ht, h]
      · simp [updateEntry, alookup, hk, ht, ih]

theorem alookup_map_entries (g : String → α → α) (m : List (String × α)) (t : String) :
    alookup t (m.map fun kv => (kv.1, g kv.1 kv.2)) = (alookup t m).map (g t) := by
  induction m with
  | nil => rfl
  | cons kv rest ih =>
    by_cases hk : kv.1 = t
    · simp [alookup, hk]
    · simp [alookup, hk, ih]

theorem alookup_mapSet_self (m : List (String × α)) (k : String) (v : α) :
    alookup k (mapSet m k v) = some v := by
  induction m with
  | nil => simp [mapSet, alookup]
  | cons kv rest ih =>
    by_cases h : kv.1 = k
    · simp [mapSet, alookup, h]
    · simp [mapSet, alookup, h, ih]

theorem countKey_cons (kv : String × α) (rest : List (String × α)) (k : String) :
    countKey (kv :: rest) k = (if kv.1 = k then 1 else 0) + countKey rest k := by
  by_cases h : kv.1 = k <;> simp [countKey, List.filter_cons, h, Nat.add_comm]

theorem countKey_eq_zero_of_not_mem (m : List (String × α)) (k : String)
    (h : k ∉ m.map Prod.fst) : countKey m k = 0 := by
  induction m with
  | nil => rfl
  | cons kv rest ih =>
    simp only [List.map_cons, List.mem_cons] at h
    push_neg at h
    rw [countKey_cons, ih h.2, if_neg (fun hh => h.1 hh.symm)]

theorem countKey_le_one_of_nodup (m : List (String × α)) (k : String)
    (h : (m.map Prod.fst).Nodup) : countKey m k ≤ 1 := by
  induction m with
  | nil => simp [countKey]
  | cons kv rest ih =>
    simp only [List.map_cons, List.nodup_cons] at h
    rw [countKey_cons]
    by_cases hk : kv.1 = k
    · have hz : countKey rest k = 0 := countKey_eq_zero_of_not_mem rest k (hk ▸ h.1)
      simp [hk, hz]
    · simpa [hk] using ih h.2

theorem countKey_map_entries (g : String → α → α) (m : List (String × α)) (t : String) :
    countKey (m.map fun kv => (kv.1, g kv.1 kv.2)) t = countKey m t := by
  induction m with
  | nil => rfl
  | cons kv rest ih =>
    rw [List.map_cons, countKey_cons, countKey_cons, ih]

theorem countKey_mapSet_of_one (m : List (String × α)) (k : String) (v : α)
    (h : countKey m k = 1) : countKey (mapSet m k v) k = 1 := by
  induction m with
  | nil => simp [countKey] at h
  | cons kv rest ih =>
    by_cases hk : kv.1 = k
    · rw [countKey_cons, if_pos hk] at h
      have hz : countKey rest k = 0 := by omega
      simp only [mapSet, if_pos hk]
      rw [countKey_cons, if_pos rfl, hz]
    · rw [countKey_cons, if_neg hk] at h
      have h' : countKey rest k = 1 := by omega
      simp only [mapSet, if_neg hk]
      rw [countKey_cons, if_neg hk]
      simpa using ih h'

theorem length_filter_solo_le_countKey (l : List (String × TrackConfig)) (track : String)
    (h : ∀ kv ∈ l, kv.2.solo = true → kv.1 = track) :
    (l.filter fun kv => kv.2.solo).length ≤ countKey l track := by
  induction l with
  | nil => simp [countKey]
  | cons kv rest ih =>
    have hrest : ∀ x ∈ rest, x.2.solo = true → x.1 = track :=
      fun x hx => h x (List.mem_cons_of_mem kv hx)
    have hrec := ih hrest
    rw [countKey_cons]
    by_cases hs : kv.2.solo = true
    · have hk : kv.1 = track := h kv (List.mem_cons_self kv rest) hs
      simp only [List.filter_cons, hs, if_pos, List.length_cons, hk]
      omega
    · have hs' : kv.2.solo = false := by simpa using hs
      by_cases hk : kv.1 = track <;> simp [List.filter_cons, hs', hk] <;> omega

theorem filter_solo_updateEntry_le (k : String) (f : TrackConfig → TrackConfig)
    (hf : ∀ st, (f st).solo = true → st.solo = true) (m : List (String × TrackConfig)) :
    ((updateEntry k f m).filter fun kv => kv.2.solo).length
      ≤ (m.filter fun kv => kv.2.solo).length := by
  induction m with
  | nil => simp [updateEntry]
  | cons kv rest ih =>
    by_cases hk : kv.1 = k
    · simp only [updateEntry, if_pos hk]
      by_cases hs : (f kv.2).solo = true
      · have h2 := hf kv.2 hs
        simp [List.filter_cons, hs, h2]
      · have hs' : (f kv.2).solo = false := by simpa using hs
        by_cases h2 : kv.2.solo = true <;> simp [List.filter_cons, hs', h2]
    · simp only [updateEntry, if_neg hk]
      by_cases h2 : kv.2.solo = true <;> simp [List.filter_cons, h2] <;> omega

end CyberSynth

namespace CyberSynth

/-! ## Claims C3 and C10 (solo/mute policies) -/

/-- In the CyberStrudel variant, every track other than the clicked one
comes out of `toggleSolo` with both `solo` and `muted` cleared. -/
theorem csToggleSolo_other_cleared (states : List (String × TrackConfig))
    (track t : String) (hne : t ≠ track) :
    ∀ cfg, alookup t (csToggleSolo states track) = some cfg →
      cfg.solo = false ∧ cfg.muted = false := by
  intro cfg hcfg
  have hlk : alookup t (csToggleSolo states track)
      = (alookup t states).map fun st =>
          if t = track
          then { st with solo := !(((alookup track states).map TrackConfig.solo).getD false) }
          else { st with solo := false, muted := false } :=
    alookup_map_entries
      (fun (k : String) (st : TrackConfig) =>
        if k = track
        then { st with solo := !(((alookup track states).map TrackConfig.solo).getD false) }
        else { st with solo := false, muted := false }) states t
  rw [hlk] at hcfg
  cases hs : alookup t states with
  | none => rw [hs] at hcfg; simp at hcfg
  | some st =>
    rw [hs] at hcfg
    simp only [Option.map_some', Option.some.injEq, if_neg hne] at hcfg
    subst hcfg
    exact ⟨rfl, rfl⟩

/-- Counterexample to **C3** as stated: the claim covers both variants'
`toggleSolo` (its sources cite `CyberStrudel.toggleSolo` and
`CyberMidi.toggleSolo`), but in the CyberStrudel variant toggling solo on
`"sd"` clears the solo flag that `"bd"` held before the call. -/
theorem c3_counterexample :
    ((alookup "bd" soloPair).map TrackConfig.solo = some true) ∧
    ((alookup "bd" (csToggleSolo soloPair "sd")).map TrackConfig.solo = some false) := by
  constructor <;> decide

/-- **C3 (amended).** Setting solo on a track leaves every other track's
solo flag unchanged only in the CyberMidi variant (`CyberMidi.toggleSolo`
touches nothing but the clicked entry, so multiple simultaneous soloes
are legal there, and every soloed, unmuted track passes the audibility
filter); the CyberStrudel variant's `toggleSolo` instead forcibly clears
every other track's solo (and mute) flag. -/
theorem c3_solo_frame (states : List (String × TrackConfig)) (track t : String)
    (hne : t ≠ track) :
    alookup t (cmToggleSolo states track) = alookup t states ∧
    (∀ cfg, alookup t states = some cfg → cfg.solo = true → cfg.muted = false →
      trackAudible states cfg = true) ∧
    (∀ cfg, alookup t (csToggleSolo states track) = some cfg →
      cfg.solo = false ∧ cfg.muted = false) := by
  refine ⟨alookup_updateEntry_ne track t _ states hne, ?_,
          csToggleSolo_other_cleared states track t hne⟩
  intro cfg _ hsolo hmuted
  simp [trackAudible, hsolo, hmuted]

/-- Witness for C3 (amended) at `soloPair`, clicked track `"sd"`,
observed track `"bd"`. -/
theorem c3_witness :
    ("bd" : String) ≠ "sd" ∧
    (alookup "bd" (cmToggleSolo soloPair "sd") = alookup "bd" soloPair ∧
     (∀ cfg, alookup "bd" soloPair = some cfg → cfg.solo = true → cfg.muted = false →
       trackAudible soloPair cfg = true) ∧
     (∀ cfg, alookup "bd" (csToggleSolo soloPair "sd") = some cfg →
       cfg.solo = false ∧ cfg.muted = false)) :=
  ⟨by decide, c3_solo_frame soloPair "sd" "bd" (by decide)⟩

/-- Every entry of `csToggleSolo` that is soloed afterwards is the
clicked track. -/
theorem csToggleSolo_solo_key (states : List (String × TrackConfig)) (track : String) :
    ∀ kv ∈ csToggleSolo states track, kv.2.solo = true → kv.1 = track := by
  intro kv hkv hsolo
  simp only [csToggleSolo, List.mem_map] at hkv
  obtain ⟨x, _, hxe⟩ := hkv
  subst hxe
  by_cases hk : x.1 = track
  · exact hk
  · simp [hk] at hsolo

/-- **C10.** In the CyberStrudel variant (unique track keys assumed, as
for any JavaScript object): `toggleSolo` leaves every other track with
`solo = false` and `muted = false`; `toggleMute` always clears the
clicked track's own solo flag; after `toggleSolo` at most one track is
soloed unconditionally, and `toggleMute` preserves "at most one soloed
track". -/
theorem c10_exclusive_solo (states : List (String × TrackConfig)) (track t : String)
    (hnd : (states.map Prod.fst).Nodup) :
    (t ≠ track → ∀ cfg, alookup t (csToggleSolo states track) = some cfg →
      cfg.solo = false ∧ cfg.muted = false) ∧
    (∀ cfg, alookup track (csToggleMute states track) = some cfg → cfg.solo = false) ∧
    atMostOneSolo (csToggleSolo states track) ∧
    (atMostOneSolo states → atMostOneSolo (csToggleMute states track)) := by
  refine ⟨fun hne => csToggleSolo_other_cleared states track t hne, ?_, ?_, ?_⟩
  · intro cfg hcfg
    rw [show csToggleMute states track
          = updateEntry track (fun st => { st with muted := !st.muted, solo := false }) states
        from rfl, alookup_updateEntry_self] at hcfg
    cases hs : alookup track states with
    | none => rw [hs] at hcfg; simp at hcfg
    | some st =>
      rw [hs] at hcfg
      simp only [Option.map_some', Option.some.injEq] at hcfg
      subst hcfg
      rfl
  · have hcount : countKey (csToggleSolo states track) track = countKey states track :=
      countKey_map_entries
        (fun (k : String) (st : TrackConfig) =>
          if k = track
          then { st with solo := !(((alookup track states).map TrackConfig.solo).getD false) }
          else { st with solo := false, muted := false }) states track
    unfold atMostOneSolo
    calc ((csToggleSolo states track).filter fun kv => kv.2.solo).length
        ≤ countKey (csToggleSolo states track) track :=
          length_filter_solo_le_countKey _ track (csToggleSolo_solo_key states track)
      _ = countKey states track := hcount
      _ ≤ 1 := countKey_le_one_of_nodup states track hnd
  · intro hpre
    unfold atMostOneSolo at hpre ⊢
    exact le_trans
      (filter_solo_updateEntry_le track _
        (fun st h => by simp at h) states) hpre

/-- Witness for C10 at `soloPair`, clicked track `"sd"`, observed track
`"bd"`. -/
theorem c10_witness :
    (soloPair.map Prod.fst).Nodup ∧ atMostOneSolo soloPair ∧
    (("bd" : String) ≠ "sd" → ∀ cfg, alookup "bd" (csToggleSolo soloPair "sd") = some cfg →
      cfg.solo = false ∧ cfg.muted = false) ∧
    (∀ cfg, alookup "sd" (csToggleMute soloPair "sd") = some cfg → cfg.solo = false) ∧
    atMostOneSolo (csToggleSolo soloPair "sd") ∧
    (atMostOneSolo soloPair → atMostOneSolo (csToggleMute soloPair "sd")) :=
  ⟨by decide, by decide, (c10_exclusive_solo soloPair "sd" "bd" (by decide)).1,
   (c10_exclusive_solo soloPair "sd" "bd" (by decide)).2.1,
   (c10_exclusive_solo soloPair "sd" "bd" (by decide)).2.2.1,
   (c10_exclusive_solo soloPair "sd" "bd" (by decide)).2.2.2⟩

end CyberSynth

namespace CyberSynth

/-! ## Claim C4 (saved-pattern name reuse) -/

/-- Counterexample to **C4** as stated: the claim covers both variants'
`savePattern` (its sources cite `CyberStrudel.savePattern` and
`CyberMidi.savePattern`), but `CyberStrudel.savePattern` performs no
duplicate check — saving again under the existing name `"X"` reports no
error and silently replaces the stored record. -/
theorem c4_counterexample :
    mapHas [("X", rec1)] "X" = true ∧
    csSavePattern [("X", rec1)] "X" rec2 = ([("X", rec2)], none) ∧
    rec2 ≠ rec1 := by
  refine ⟨by decide, by decide, by decide⟩

/-- **C4 (amended).** A second save under an existing name fails with the
duplicate-name error and leaves the library unchanged only in the
CyberMidi variant; in the CyberStrudel variant the save succeeds and
overwrites in place: afterwards the library still contains exactly one
entry for that name, but holding the new record. -/
theorem c4_save_duplicate {α : Type} (lib : List (String × α)) (rec : α)
    (libS : List (String × PatternRecord)) (recS : PatternRecord) (name : String)
    (hname : name ≠ "") :
    (mapHas lib name = true →
      cmSavePattern lib name rec = (lib, some LibError.duplicateName)) ∧
    (recS.code ≠ "" → countKey libS name = 1 →
      (csSavePattern libS name recS).2 = none ∧
      countKey (csSavePattern libS name recS).1 name = 1 ∧
      alookup name (csSavePattern libS name recS).1 = some recS) := by
  constructor
  · intro hhas
    unfold cmSavePattern
    rw [if_neg hname, if_pos hhas]
  · intro hcode hone
    unfold csSavePattern
    rw [if_neg hname, if_neg hcode]
    exact ⟨rfl, countKey_mapSet_of_one libS name recS hone,
           alookup_mapSet_self libS name recS⟩

/-- Witness for C4 (amended) at one-entry libraries under the name
`"X"`. -/
theorem c4_witness :
    ("X" : String) ≠ "" ∧ mapHas [("X", rec1)] "X" = true ∧
    rec2.code ≠ "" ∧ countKey [("X", rec1)] "X" = 1 ∧
    cmSavePattern [("X", rec1)] "X" rec2 = ([("X", rec1)], some LibError.duplicateName) ∧
    ((csSavePattern [("X", rec1)] "X" rec2).2 = none ∧
     countKey (csSavePattern [("X", rec1)] "X" rec2).1 "X" = 1 ∧
     alookup "X" (csSavePattern [("X", rec1)] "X" rec2).1 = some rec2) :=
  ⟨by decide, by decide, by decide, by decide,
   (c4_save_duplicate [("X", rec1)] rec2 [("X", rec1)] rec2 "X" (by decide)).1 (by decide),
   (c4_save_duplicate [("X", rec1)] rec2 [("X", rec1)] rec2 "X" (by decide)).2
     (by decide) (by decide)⟩

/-! ## Claim C5 (step-count resize) -/

theorem getD_range_map (f : Nat → α) (n i : Nat) (d : α) (h : i < n) :
    ((List.range n).map f).getD i d = f i := by
  rw [List.getD_eq_getElem?_getD, List.getElem?_map, List.getElem?_range h]
  rfl

theorem getD_take_lt (l : List α) (n i : Nat) (d : α) (h : i < n) :
    (l.take n).getD i d = l.getD i d := by
  rw [List.getD_eq_getElem?_getD, List.getD_eq_getElem?_getD, List.getElem?_take, if_pos h]

/-- **C5.** Resizing a track's step count from `old` to `cnt`
(both in `{4, 8, 16}`) rebuilds the grid at length `cnt`: indices below
`min old cnt` keep their previous values, all remaining indices are
inactive, and afterwards the track's grid length equals its stored
`stepCount`. -/
theorem c5_changeStepCount (s : EngineState) (track : String) (grid : List Bool)
    (cfg : TrackConfig) (old cnt : Nat)
    (_hold : old ∈ ([4, 8, 16] : List Nat)) (_hcnt : cnt ∈ ([4, 8, 16] : List Nat))
    (hgrid : alookup track s.sequencerState = some grid)
    (hcfg : alookup track s.trackStates = some cfg)
    (hlen : grid.length = old) :
    alookup track (changeStepCount s track cnt).sequencerState
      = some (changeStepCountGrid grid cnt) ∧
    (changeStepCountGrid grid cnt).length = cnt ∧
    (∀ i, i < min old cnt →
      (changeStepCountGrid grid cnt).getD i false = grid.getD i false) ∧
    (∀ i, min old cnt ≤ i → i < cnt →
      (changeStepCountGrid grid cnt).getD i false = false) ∧
    alookup track (changeStepCount s track cnt).trackStates
      = some { cfg with steps := cnt } ∧
    (changeStepCountGrid grid cnt).length = ({ cfg with steps := cnt } : TrackConfig).steps := by
  have hseq : alookup track (changeStepCount s track cnt).sequencerState
      = some (changeStepCountGrid grid cnt) := by
    show alookup track
        (updateEntry track (fun g => changeStepCountGrid g cnt) s.sequencerState)
      = some (changeStepCountGrid grid cnt)
    rw [alookup_updateEntry_self, hgrid]
    rfl
  have hlength : (changeStepCountGrid grid cnt).length = cnt := by
    simp [changeStepCountGrid]
  refine ⟨hseq, hlength, ?_, ?_, ?_, ?_⟩
  · intro i hi
    unfold changeStepCountGrid
    rw [getD_range_map _ cnt i false (lt_of_lt_of_le hi (min_le_right old cnt))]
    exact getD_take_lt grid cnt i false (lt_of_lt_of_le hi (min_le_right old cnt))
  · intro i hge hlt
    unfold changeStepCountGrid
    rw [getD_range_map _ cnt i false hlt]
    have hout : (grid.take cnt).length ≤ i := by
      rw [List.length_take, hlen]
      omega
    rw [List.getD_eq_getElem?_getD, List.getElem?_eq_none hout]
    rfl
  · show alookup track
        (updateEntry track (fun c => { c with steps := cnt }) s.trackStates)
      = some { cfg with steps := cnt }
    rw [alookup_updateEntry_self, hcfg]
    rfl
  · simpa using hlength

/-- Witness for C5 at `mixState1`, track `"bd"`, resize 8 → 4. -/
theorem c5_witness :
    (8 ∈ ([4, 8, 16] : List Nat)) ∧ (4 ∈ ([4, 8, 16] : List Nat)) ∧
    alookup "bd" mixState1.sequencerState
      = some [true, false, true, false, false, false, false, false] ∧
    alookup "bd" mixState1.trackStates = some ⟨false, false, 8, "bd"⟩ ∧
    ([true, false, true, false, false, false, false, false] : List Bool).length = 8 ∧
    (alookup "bd" (changeStepCount mixState1 "bd" 4).sequencerState
      = some (changeStepCountGrid [true, false, true, false, false, false, false, false] 4) ∧
     (changeStepCountGrid [true, false, true, false, false, false, false, false] 4).length = 4 ∧
     (∀ i, i < min 8 4 →
       (changeStepCountGrid [true, false, true, false, false, false, false, false] 4).getD i false
         = ([true, false, true, false, false, false, false, false] : List Bool).getD i false) ∧
     (∀ i, min 8 4 ≤ i → i < 4 →
       (changeStepCountGrid [true, false, true, false, false, false, false, false] 4).getD i false
         = false) ∧
     alookup "bd" (changeStepCount mixState1 "bd" 4).trackStates
       = some { (⟨false, false, 8, "bd"⟩ : TrackConfig) with steps := 4 } ∧
     (changeStepCountGrid [true, false, true, false, false, false, false, false] 4).length
       = ({ (⟨false, false, 8, "bd"⟩ : TrackConfig) with steps := 4 } : TrackConfig).steps) :=
  ⟨by decide, by decide, by decide, by decide, by decide,
   c5_changeStepCount mixState1 "bd" [true, false, true, false, false, false, false, false]
     ⟨false, false, 8, "bd"⟩ 8 4 (by decide) (by decide) (by decide) (by decide) (by decide)⟩

end CyberSynth

namespace CyberSynth

/-! ## Claim C6 (bounded history) -/

theorem saveToHistory_kept {α : Type} (s : HistoryState α) (hinv : histInv s) :
    (if s.historyIndex < (s.history.length : Int) - 1
     then s.history.take (s.historyIndex + 1).toNat
     else s.history) = s.history.take ((s.historyIndex + 1).toNat) := by
  split
  · rfl
  · rename_i hge
    push_neg at hge
    cases hinv with
    | inl hnil => simp [hnil]
    | inr hiv =>
      have hle : s.history.length ≤ (s.historyIndex + 1).toNat := by omega
      exact (List.take_of_length_le hle).symm

theorem saveToHistory_eq {α : Type} (s : HistoryState α) (snap : α) (hinv : histInv s) :
    saveToHistory s snap
      = { history :=
            (if (s.history.take ((s.historyIndex + 1).toNat) ++ [snap]).length > maxHistory
             then (s.history.take ((s.historyIndex + 1).toNat) ++ [snap]).drop 1
             else s.history.take ((s.historyIndex + 1).toNat) ++ [snap]),
          historyIndex :=
            ((if (s.history.take ((s.historyIndex + 1).toNat) ++ [snap]).length > maxHistory
              then (s.history.take ((s.historyIndex + 1).toNat) ++ [snap]).drop 1
              else s.history.take ((s.historyIndex + 1).toNat) ++ [snap]).length : Int) - 1 } := by
  unfold saveToHistory
  rw [saveToHistory_kept s hinv]

/-- **C6.** Under the history invariant and the size bound: a push
discards every entry after the cursor, appends the snapshot, evicts the
oldest entry exactly when the length would exceed `maxHistory` (so the
stack never exceeds `maxHistory` entries), and leaves the cursor at the
last position; the invariant `0 ≤ index < length` (for non-empty stacks)
holds after the push and is preserved by `undo` and `redo`, neither of
which touches the stack itself. -/
theorem c6_history_bounds {α : Type} (s : HistoryState α) (snap : α) :
    (histInv s → s.history.length ≤ maxHistory →
      ((saveToHistory s snap).history
          = (if (s.history.take ((s.historyIndex + 1).toNat) ++ [snap]).length > maxHistory
             then (s.history.take ((s.historyIndex + 1).toNat) ++ [snap]).drop 1
             else s.history.take ((s.historyIndex + 1).toNat) ++ [snap]) ∧
       (saveToHistory s snap).history.length ≤ maxHistory ∧
       (saveToHistory s snap).historyIndex
         = ((saveToHistory s snap).history.length : Int) - 1 ∧
       histInv (saveToHistory s snap))) ∧
    (histInv s →
      histInv (undoStack s) ∧ histInv (redoStack s) ∧
      (undoStack s).history = s.history ∧ (redoStack s).history = s.history) := by
  constructor
  · intro hinv hlen
    have he := saveToHistory_eq s snap hinv
    have htk : (s.history.take ((s.historyIndex + 1).toNat)).length ≤ s.history.length := by
      rw [List.length_take]
      omega
    refine ⟨by rw [he], ?_, ?_, ?_⟩
    · rw [he]
      dsimp only
      split
      · rename_i hgt
        rw [List.length_drop]
        simp only [List.length_append, List.length_singleton] at hgt ⊢
        omega
      · rename_i hng
        push_neg at hng
        exact hng
    · rw [he]
    · rw [he]
      unfold histInv
      right
      dsimp only
      split
      · rename_i hgt
        rw [List.length_drop]
        simp only [List.length_append, List.length_singleton] at hgt ⊢
        unfold maxHistory at hgt
        omega
      · simp only [List.length_append, List.length_singleton]
        omega
  · intro hinv
    refine ⟨?_, ?_, ?_, ?_⟩
    · unfold undoStack
      split
      · exact hinv
      · rename_i hgt
        push_neg at hgt
        cases hinv with
        | inl hnil => exact Or.inl hnil
        | inr hiv =>
          right
          constructor
          · show (0 : Int) ≤ s.historyIndex - 1
            omega
          · show s.historyIndex - 1 < (s.history.length : Int)
            omega
    · unfold redoStack
      split
      · exact hinv
      · rename_i hlt
        push_neg at hlt
        cases hinv with
        | inl hnil => exact Or.inl hnil
        | inr hiv =>
          right
          constructor
          · show (0 : Int) ≤ s.historyIndex + 1
            omega
          · show s.historyIndex + 1 < (s.history.length : Int)
            omega
    · unfold undoStack
      split <;> rfl
    · unfold redoStack
      split <;> rfl

/-- Witness for C6 at the stack `[10, 20, 30]`, cursor `2`, pushing
`40`. -/
theorem c6_witness :
    histInv (⟨[10, 20, 30], 2⟩ : HistoryState Nat) ∧
    (⟨[10, 20, 30], 2⟩ : HistoryState Nat).history.length ≤ maxHistory ∧
    ((saveToHistory (⟨[10, 20, 30], 2⟩ : HistoryState Nat) 40).history
        = (if (([10, 20, 30] : List Nat).take ((2 + 1 : Int).toNat) ++ [40]).length > maxHistory
           then (([10, 20, 30] : List Nat).take ((2 + 1 : Int).toNat) ++ [40]).drop 1
           else ([10, 20, 30] : List Nat).take ((2 + 1 : Int).toNat) ++ [40]) ∧
     (saveToHistory (⟨[10, 20, 30], 2⟩ : HistoryState Nat) 40).history.length ≤ maxHistory ∧
     (saveToHistory (⟨[10, 20, 30], 2⟩ : HistoryState Nat) 40).historyIndex
       = ((saveToHistory (⟨[10, 20, 30], 2⟩ : HistoryState Nat) 40).history.length : Int) - 1 ∧
     histInv (saveToHistory (⟨[10, 20, 30], 2⟩ : HistoryState Nat) 40)) ∧
    (histInv (undoStack (⟨[10, 20, 30], 2⟩ : HistoryState Nat)) ∧
     histInv (redoStack (⟨[10, 20, 30], 2⟩ : HistoryState Nat)) ∧
     (undoStack (⟨[10, 20, 30], 2⟩ : HistoryState Nat)).history = [10, 20, 30] ∧
     (redoStack (⟨[10, 20, 30], 2⟩ : HistoryState Nat)).history = [10, 20, 30]) :=
  ⟨by decide, by decide,
   (c6_history_bounds (⟨[10, 20, 30], 2⟩ : HistoryState Nat) 40).1 (by decide) (by decide),
   (c6_history_bounds (⟨[10, 20, 30], 2⟩ : HistoryState Nat) 40).2 (by decide)⟩

end CyberSynth

namespace CyberSynth

/-! ## Claim C7 (toggleStep bounds) -/

/-- Counterexample to **C7** as stated: `toggleStep` has no bounds check
at all (`CyberStrudel` line 1125, `CyberMidi` line 231).  Toggling index
3 of a 2-step grid does not fail with `OutOfRange` and does not leave the
grid unchanged: the negated `undefined` writes `true` at index 3 and
extends the grid. -/
theorem c7_counterexample :
    toggleStepGrid [false, false] 3 ≠ [false, false] ∧
    toggleStepGrid [false, false] 3 = [false, false, false, true] := by
  refine ⟨by decide, by decide⟩

/-- **C7 (amended).** For `index` inside the grid, `toggleStep` flips
exactly that one boolean and no other.  For `index` at or past the end it
raises no error: the assignment extends the grid to length `index + 1`,
position `index` becomes active (`!undefined` is `true`), positions below
the old length keep their values, and the new holes in between read back
as inactive. -/
theorem c7_toggleStep (grid : List Bool) (index : Nat) :
    (index < grid.length →
      (toggleStepGrid grid index).length = grid.length ∧
      (toggleStepGrid grid index).getD index false = !(grid.getD index false) ∧
      (∀ j, j ≠ index → (toggleStepGrid grid index).getD j false = grid.getD j false)) ∧
    (grid.length ≤ index →
      (toggleStepGrid grid index).length = index + 1 ∧
      (toggleStepGrid grid index).getD index false = true ∧
      (∀ j, j < grid.length → (toggleStepGrid grid index).getD j false = grid.getD j false) ∧
      (∀ j, grid.length ≤ j → j < index →
        (toggleStepGrid grid index).getD j false = false)) := by
  constructor
  · intro h
    unfold toggleStepGrid
    rw [dif_pos h]
    refine ⟨by simp, ?_, ?_⟩
    · rw [List.getD_eq_getElem?_getD, List.getElem?_set_self']
      rw [List.getD_eq_getElem?_getD, List.getElem?_eq_getElem h]
      simp [List.length_set, h]
    · intro j hj
      rw [List.getD_eq_getElem?_getD, List.getD_eq_getElem?_getD,
          List.getElem?_set_ne (fun hh => hj hh.symm)]
  · intro h
    unfold toggleStepGrid
    rw [dif_neg (by omega)]
    have hlen : (grid ++ List.replicate (index - grid.length) false).length = index := by
      simp [List.length_append, List.length_replicate]
      omega
    refine ⟨?_, ?_, ?_, ?_⟩
    · simp [List.length_append, List.length_replicate]
      omega
    · rw [List.getD_eq_getElem?_getD, List.getElem?_append_right (le_of_eq hlen), hlen]
      simp
    · intro j hj
      rw [List.getD_eq_getElem?_getD,
          List.getElem?_append_left (by rw [hlen]; omega :
            j < (grid ++ List.replicate (index - grid.length) false).length),
          List.getElem?_append_left hj, List.getD_eq_getElem?_getD]
    · intro j hge hlt
      rw [List.getD_eq_getElem?_getD,
          List.getElem?_append_left (by rw [hlen]; omega :
            j < (grid ++ List.replicate (index - grid.length) false).length),
          List.getElem?_append_right hge]
      rw [List.getElem?_replicate]
      split <;> rfl

/-- Witness for C7 at grid `[true, false]`, in-range index 1 and
out-of-range index 3. -/
theorem c7_witness :
    (1 < ([true, false] : List Bool).length) ∧
    (([true, false] : List Bool).length ≤ 3) ∧
    ((toggleStepGrid [true, false] 1).length = ([true, false] : List Bool).length ∧
     (toggleStepGrid [true, false] 1).getD 1 false
       = !(([true, false] : List Bool).getD 1 false) ∧
     (∀ j, j ≠ 1 → (toggleStepGrid [true, false] 1).getD j false
       = ([true, false] : List Bool).getD j false)) ∧
    ((toggleStepGrid [true, false] 3).length = 3 + 1 ∧
     (toggleStepGrid [true, false] 3).getD 3 false = true ∧
     (∀ j, j < ([true, false] : List Bool).length →
       (toggleStepGrid [true, false] 3).getD j false
         = ([true, false] : List Bool).getD j false) ∧
     (∀ j, ([true, false] : List Bool).length ≤ j → j < 3 →
       (toggleStepGrid [true, false] 3).getD j false = false)) :=
  ⟨by decide, by decide,
   (c7_toggleStep [true, false] 1).1 (by decide),
   (c7_toggleStep [true, false] 3).2 (by decide)⟩

end CyberSynth

namespace CyberSynth

/-! ## Claim C8 (import) -/

theorem entryKV_isSome_of_isNamedPair (item : JVal) (h : isNamedPair item = true) :
    (entryKV item).isSome = true := by
  unfold isNamedPair at h
  split at h
  · simp [entryKV]
  · simp at h

theorem addEntries_ok (items : List JVal)
    (h : ∀ item ∈ items, (entryKV item).isSome = true) :
    ∀ acc, ∃ m, addEntries items acc = .ok m := by
  induction items with
  | nil => exact fun acc => ⟨acc, rfl⟩
  | cons item rest ih =>
    intro acc
    have hi := h item (List.mem_cons_self item rest)
    cases he : entryKV item with
    | none => rw [he] at hi; simp at hi
    | some kv =>
      obtain ⟨k, v⟩ := kv
      simp only [addEntries, he]
      exact ih (fun x hx => h x (List.mem_cons_of_mem _ hx)) (jmapSet acc k v)

/-- Counterexample to **C8** as stated: `badPayload` is not a well-formed
list of `(name, record)` pairs (its only entry is a three-element array),
yet import does not report `MalformedInput` and does not leave the state
unchanged — `new Map` takes the first two elements of the entry, so the
library is replaced and the saved selection cleared. -/
theorem c8_counterexample :
    wellFormedPairs badPayload = false ∧
    importPatterns badPayload [(JVal.str "X", JVal.str "old")] [("X", true)]
      = ([(JVal.str "a", JVal.str "b")], [], false) ∧
    ([(JVal.str "a", JVal.str "b")] : List (JVal × JVal)) ≠ [(JVal.str "X", JVal.str "old")] := by
  refine ⟨rfl, rfl, by simp⟩

/-- **C8 (amended).** Importing a payload whose `Map` construction
throws — a number, boolean, plain object or non-empty string, or an
array containing a non-object entry — leaves the library and the saved
mix selection unchanged and reports the import error; any payload the
`Map` construction accepts replaces the library wholesale with the
constructed map and clears the saved mix selection.  The accepted
payloads include ones that are not well-formed pair lists: entries with
extra elements are truncated to their first two, and a bare `null`
(which the `Map` constructor turns into the empty map without throwing)
silently empties the library.  Every well-formed `(name, record)` pair
list is accepted. -/
theorem c8_import (payload : JVal) (lib : List (JVal × JVal))
    (sel : List (String × Bool)) :
    (newMapFromJson payload = .error () → importPatterns payload lib sel = (lib, sel, true)) ∧
    (∀ m, newMapFromJson payload = .ok m → importPatterns payload lib sel = (m, [], false)) ∧
    (wellFormedPairs payload = true → ∃ m, newMapFromJson payload = .ok m) ∧
    importPatterns JVal.null lib sel = ([], [], false) := by
  refine ⟨?_, ?_, ?_, rfl⟩
  · intro he
    unfold importPatterns
    rw [he]
  · intro m hm
    unfold importPatterns
    rw [hm]
  · intro hw
    cases payload <;> simp [wellFormedPairs] at hw
    case arr items =>
      unfold newMapFromJson
      exact addEntries_ok items
        (fun item hi => entryKV_isSome_of_isNamedPair item (hw item hi)) []

/-- Witness for C8 at the well-formed two-entry payload `goodPayload`,
plus the `null` payload silently emptying a one-entry library. -/
theorem c8_witness :
    wellFormedPairs goodPayload = true ∧
    newMapFromJson goodPayload
      = .ok [(JVal.str "beat", JVal.obj [("code", JVal.str "s(\"bd*4\")")]),
             (JVal.str "hats", JVal.obj [("code", JVal.str "s(\"hh*8\")")])] ∧
    importPatterns goodPayload [(JVal.str "X", JVal.str "old")] [("X", true)]
      = ([(JVal.str "beat", JVal.obj [("code", JVal.str "s(\"bd*4\")")]),
          (JVal.str "hats", JVal.obj [("code", JVal.str "s(\"hh*8\")")])], [], false) ∧
    (∃ m, newMapFromJson goodPayload = .ok m) ∧
    importPatterns JVal.null [(JVal.str "X", JVal.str "old")] [("X", true)]
      = ([], [], false) :=
  ⟨rfl, rfl,
   (c8_import goodPayload [(JVal.str "X", JVal.str "old")] [("X", true)]).2.1 _ rfl,
   (c8_import goodPayload [(JVal.str "X", JVal.str "old")] [("X", true)]).2.2.1 rfl,
   (c8_import JVal.null [(JVal.str "X", JVal.str "old")] [("X", true)]).2.2.2⟩

end CyberSynth
